import Mathlib

/-!
Shallow embedding of `projeto_clima_porto_alegre.py`, a daily-weather analysis
script for Porto Alegre (CSV ingestion, interval filtering, wettest-month and
minimum-temperature aggregations).

Modelling conventions:
* Python `float` cell parsing is modelled at the token level by `PyFloat`
  (finite rational, signed infinity, NaN): `float("nan")` and `float("inf")`
  succeed in Python, so the coercion layer must distinguish these outcomes.
  A finite decimal literal is represented by the exact rational it denotes
  (double rounding and overflow to infinity are elided).
* Inside the aggregation functions, float arithmetic is idealised as exact
  rational (`ℚ`) arithmetic; records consumed by the aggregators carry
  `Option ℚ` fields (`none` = the Python `None` sentinel for a missing value).
* Python dicts preserve insertion order; they are modelled by association
  lists where updating an existing key keeps its position and a new key is
  appended at the end.
* Exceptions raised by a function (`KeyError`, `ValueError`) are modelled by
  `Except String` carrying the source's message; exceptions that the source
  catches locally are modelled by `Option`.
-/

namespace Clima

/-! ### Python string helpers -/

/-- Characters removed by Python `str.strip()` (ASCII whitespace). -/
def pySpace (c : Char) : Bool :=
  c = ' ' || c = '\t' || c = '\n' || c = '\r' || c = '\x0b' || c = '\x0c'

/-- Python `str.strip()` on a character list: drop ASCII whitespace at both ends. -/
def pyStripL (cs : List Char) : List Char :=
  ((cs.dropWhile pySpace).reverse.dropWhile pySpace).reverse

/-- Python `.replace(",", ".")`: every comma becomes a period. -/
def commaToDot (cs : List Char) : List Char :=
  cs.map (fun c => if c = ',' then '.' else c)

/-- Python `str.lower()` (ASCII fragment). -/
def pyLower (cs : List Char) : List Char :=
  cs.map Char.toLower

/-- Python `str.strip()` at the `String` level. -/
def pyStrip (s : String) : String :=
  ⟨pyStripL s.toList⟩

/-! ### Python `float()` parsing

`PyFloat` is the outcome of a successful Python `float(text)` call: a finite
value (kept as the exact rational the literal denotes), a signed infinity
(`inf`/`infinity` tokens), or NaN (`nan` token). -/

inductive PyFloat where
  | finite (q : ℚ)
  | inf (neg : Bool)
  | nan
deriving DecidableEq, Repr

/-- Optional leading sign: returns (isNegative, rest). -/
def readSign : List Char → Bool × List Char
  | '-' :: rest => (true, rest)
  | '+' :: rest => (false, rest)
  | cs => (false, cs)

/-- Digit run with Python numeric-literal underscores (each `_` must sit
between two digits); accumulates the value and the digit count. -/
def digitsCore (acc n : ℕ) : List Char → Option (ℕ × ℕ)
  | [] => some (acc, n)
  | c :: rest =>
    if c.isDigit then digitsCore (acc * 10 + (c.toNat - 48)) (n + 1) rest
    else if c = '_' then
      match rest with
      | d :: rest' =>
        if d.isDigit then digitsCore (acc * 10 + (d.toNat - 48)) (n + 1) rest' else none
      | [] => none
    else none

/-- A Python `digitpart`: nonempty, starts with a digit, underscores only
between digits. Returns (value, number of digits). -/
def digitpart? : List Char → Option (ℕ × ℕ)
  | [] => none
  | c :: rest => if c.isDigit then digitsCore (c.toNat - 48) 1 rest else none

/-- Split at the first `e`/`E` (exponent marker), if any. -/
def splitExp (cs : List Char) : List Char × Option (List Char) :=
  match cs.span (fun c => !(c = 'e' || c = 'E')) with
  | (mant, []) => (mant, none)
  | (mant, _ :: ex) => (mant, some ex)

/-- Split at the first `.`, if any. -/
def splitDot (cs : List Char) : List Char × Option (List Char) :=
  match cs.span (fun c => !(c = '.')) with
  | (ip, []) => (ip, none)
  | (ip, _ :: fp) => (ip, some fp)

/-- Mantissa of a decimal float literal: integer part, optional fraction. -/
def parseMantissa : List Char → Option (List Char) → Option ℚ
  | ip, none => (digitpart? ip).map (fun vn => (vn.1 : ℚ))
  | ip, some f =>
    if f = [] then
      (digitpart? ip).map (fun vn => (vn.1 : ℚ))
    else if ip = [] then
      (digitpart? f).map (fun vn => (vn.1 : ℚ) / 10 ^ vn.2)
    else
      match digitpart? ip, digitpart? f with
      | some vi, some vf => some ((vi.1 : ℚ) + (vf.1 : ℚ) / 10 ^ vf.2)
      | _, _ => none

/-- Optional exponent part (the text after `e`/`E`): signed digitpart. -/
def parseExpOpt : Option (List Char) → Option ℤ
  | none => some 0
  | some ex =>
    let (neg, rest) := readSign ex
    (digitpart? rest).map (fun vn => if neg then -(vn.1 : ℤ) else (vn.1 : ℤ))

/-- A (sign-free) decimal float literal: mantissa and optional exponent. -/
def parseDecimal (cs : List Char) : Option ℚ := do
  let (mant, ex) := splitExp cs
  let (ip, fp) := splitDot mant
  let m ← parseMantissa ip fp
  let e ← parseExpOpt ex
  return m * (10 : ℚ) ^ e

/-- Python `float(text)` on already-stripped text: optional sign, then the
`inf`/`infinity`/`nan` tokens (case-insensitive) or a decimal literal.
`none` models the `ValueError` Python raises on unparseable text. -/
def pyFloat? (cs : List Char) : Option PyFloat :=
  let (neg, rest) := readSign cs
  if pyLower rest = ['i', 'n', 'f'] || pyLower rest = ['i', 'n', 'f', 'i', 'n', 'i', 't', 'y'] then
    some (.inf neg)
  else if pyLower rest = ['n', 'a', 'n'] then
    some .nan
  else
    (parseDecimal rest).map (fun q => .finite (if neg then -q else q))

/-- Source `_to_float(s)`: strip, normalise the decimal comma, map the
empty string, a single dash and a case-insensitive `na` to `None`, otherwise
try `float(...)`, with a failed parse also giving `None`. -/
def _to_float (s : String) : Option PyFloat :=
  let txt := commaToDot (pyStripL s.toList)
  if txt = [] || txt = ['-'] || pyLower txt = ['n', 'a'] then none
  else pyFloat? txt

/-! ### Dates -/

/-- A `datetime.date`: year, month, day. -/
structure Date where
  year : Int
  month : Int
  day : Int
deriving DecidableEq, Repr

/-- Gregorian leap year. -/
def bissexto (y : Int) : Bool :=
  (y % 4 = 0 && y % 100 ≠ 0) || y % 400 = 0

/-- Days in a month of a given year. -/
def dias_no_mes (y m : Int) : Int :=
  if m = 2 then (if bissexto y then 29 else 28)
  else if m = 4 || m = 6 || m = 9 || m = 11 then 30
  else 31

/-- Split a character list on a separator character. -/
def splitChar (sep : Char) : List Char → List (List Char)
  | [] => [[]]
  | c :: rest =>
    let r := splitChar sep rest
    if c = sep then [] :: r
    else
      match r with
      | g :: gs => (c :: g) :: gs
      | [] => [[c]]

/-- Nonempty all-digit run, as a number. -/
def digitos? (cs : List Char) : Option ℕ :=
  if cs ≠ [] ∧ cs.all Char.isDigit then
    some (cs.foldl (fun a c => a * 10 + (c.toNat - 48)) 0)
  else none

/-- Source `parse_data_br(txt)`: strip, then `strptime(txt, "%d/%m/%Y")`.
The pattern takes a 1-2 digit day in 1..31, a 1-2 digit month in 1..12, a
4-digit year, separated by slashes and covering the whole text; constructing
the `date` additionally checks the day against the month length and the year
against `MINYEAR = 1`. `none` models the `ValueError` raised otherwise. -/
def parse_data_br (s : String) : Option Date :=
  match splitChar '/' (pyStripL s.toList) with
  | [ds, ms, ys] =>
    if ds.length ≤ 2 && ms.length ≤ 2 && ys.length = 4 then
      match digitos? ds, digitos? ms, digitos? ys with
      | some dv, some mv, some yv =>
        if 1 ≤ dv ∧ dv ≤ 31 ∧ 1 ≤ mv ∧ mv ≤ 12 ∧ 1 ≤ yv ∧
            (dv : Int) ≤ dias_no_mes (yv : Int) (mv : Int) then
          some ⟨(yv : Int), (mv : Int), (dv : Int)⟩
        else none
      | _, _, _ => none
    else none
  | _ => none

/-- Python tuple `≤` on pairs: lexicographic. -/
def pairLe (p q : Int × Int) : Bool :=
  p.1 < q.1 || (p.1 = q.1 && p.2 ≤ q.2)

/-- Source `dentro_periodo(d, mes_ini, ano_ini, mes_fim, ano_fim)`:
`(ano_ini, mes_ini) <= (d.year, d.month) <= (ano_fim, mes_fim)`. -/
def dentro_periodo (d : Date) (mes_ini ano_ini mes_fim ano_fim : Int) : Bool :=
  pairLe (ano_ini, mes_ini) (d.year, d.month) && pairLe (d.year, d.month) (ano_fim, mes_fim)

/-- The `datetime.date` order: lexicographic on (year, month, day); the sort key
used by `filtrar_por_intervalo`. -/
def dateLe (d e : Date) : Bool :=
  d.year < e.year || (d.year = e.year &&
    (d.month < e.month || (d.month = e.month && d.day ≤ e.day)))

/-! ### Records

The source keeps each row as a dict with keys `data`, `precip`, `maxima`,
`minima`, `temp_media`, `um_relativa`, `vel_vento`; numeric values are
`float | None`. The numeric value type is a parameter: the loader produces
`Registro PyFloat` (full Python float domain), while the aggregators are
verified over `Registro ℚ`, the exact-rational idealisation of their float
arithmetic. -/

structure Registro (α : Type) where
  data : Date
  precip : Option α
  maxima : Option α
  minima : Option α
  temp_media : Option α
  um_relativa : Option α
  vel_vento : Option α
deriving DecidableEq, Repr

/-! ### Interval filter -/

/-- Source `filtrar_por_intervalo`: keep records inside the period, then
sort ascending by date (Python `list.sort` with key `r["data"]`). -/
def filtrar_por_intervalo (registros : List (Registro ℚ))
    (mes_ini ano_ini mes_fim ano_fim : Int) : List (Registro ℚ) :=
  (registros.filter (fun r => dentro_periodo r.data mes_ini ano_ini mes_fim ano_fim)).mergeSort
    (fun r s => dateLe r.data s.data)

/-! ### Wettest month -/

/-- Ordered-dict update `m[k] = m.get(k, 0.0) + p`: an existing key keeps
its position, a new key is appended at the end. -/
def atualizar (m : List ((Int × Int) × ℚ)) (k : Int × Int) (p : ℚ) :
    List ((Int × Int) × ℚ) :=
  match m with
  | [] => [(k, p)]
  | (k', v) :: rest =>
    if k' = k then (k', v + p) :: rest else (k', v) :: atualizar rest k p

/-- The dict `soma_por_mes` built by `mes_mais_chuvoso`: for each record
with a present precipitation, add it to the (year, month) key's sum. -/
def soma_por_mes (registros : List (Registro ℚ)) : List ((Int × Int) × ℚ) :=
  registros.foldl
    (fun m r =>
      match r.precip with
      | none => m
      | some p => atualizar m (r.data.year, r.data.month) p)
    []

/-- Python `max(items, key=lambda kv: kv[1])`: scan keeping the current
maximum, replacing it only on a strictly larger key — on ties the earlier
element wins. `none` on an empty list (Python raises there, but the source
guards the empty dict first). -/
def max_by_snd : List ((Int × Int) × ℚ) → Option ((Int × Int) × ℚ)
  | [] => none
  | x :: xs => some (xs.foldl (fun acc y => if acc.2 < y.2 then y else acc) x)

/-- Source `mes_mais_chuvoso(registros)`: build `soma_por_mes`, fail when it
is empty, otherwise return the key with the maximal sum. -/
def mes_mais_chuvoso (registros : List (Registro ℚ)) :
    Except String (Int × Int × ℚ) :=
  match max_by_snd (soma_por_mes registros) with
  | none => .error "Não há dados de precipitação válidos para cálculo."
  | some ((ano, mes), total) => .ok (ano, mes, total)

/-! ### Minimum-temperature averages 2006-2016 -/

/-- The accumulation loop of `medias_minimas_mes_2006_2016`: the dict
`vals = {ano: [] for ano in range(2006, 2017)}` as a function from year to
its list; `d.year in vals` is the window test `2006 ≤ year ≤ 2016`, and a
present `minima` is appended to its year's list. -/
def vals_minimas (registros : List (Registro ℚ)) (mes : Int) : Int → List ℚ :=
  registros.foldl
    (fun vals r =>
      if (2006 ≤ r.data.year ∧ r.data.year ≤ 2016) ∧ r.data.month = mes then
        match r.minima with
        | some v => fun y => if y = r.data.year then vals y ++ [v] else vals y
        | none => vals
      else vals)
    (fun _ => [])

/-- The years 2006..2016 in the insertion order of `vals`. -/
def anos_janela : List Int :=
  (List.range 11).map (fun i : ℕ => (2006 : Int) + (i : Int))

/-- Source `medias_minimas_mes_2006_2016(registros, mes)`: reject a month
outside 1..12, accumulate present minima per year of the 2006-2016 window,
and return `{ano: média}` keeping only years with at least one value. -/
def medias_minimas_mes_2006_2016 (registros : List (Registro ℚ)) (mes : Int) :
    Except String (List (Int × ℚ)) :=
  if ¬(1 ≤ mes ∧ mes ≤ 12) then
    .error "Mês inválido. Use valores entre 1 e 12."
  else
    let vals := vals_minimas registros mes
    .ok (anos_janela.filterMap
      (fun ano =>
        if vals ano ≠ [] then some (ano, (vals ano).sum / (vals ano).length) else none))

/-- Source `media_geral(medias)`: mean of the per-year means, `None` when
the dict is empty. -/
def media_geral (medias : List (Int × ℚ)) : Option ℚ :=
  if medias = [] then none
  else some ((medias.map Prod.snd).sum / medias.length)

/-! ### Header resolution -/

/-- The `mapa` built by `_mapear_colunas`: canonical field name to the real
CSV header it resolved to (the empty string marks an unresolved optional
column, which the source tests for truthiness). -/
structure ColumnMap where
  data : String
  precip : String
  maxima : String
  minima : String
  temp_media : String
  um_relativa : String
  vel_vento : String
deriving DecidableEq, Repr

/-- Python `startswith` on character lists. -/
def comecaCom : List Char → List Char → Bool
  | _, [] => true
  | [], _ :: _ => false
  | c :: cs, p :: ps => c = p && comecaCom cs ps

/-- The normalisation `h.strip().lower()` as a character list. -/
def normCab (h : String) : List Char :=
  pyLower (pyStripL h.toList)

/-- Source `achar(prefixos)`: for each candidate in order, the first header
whose stripped lowercase form starts with it. -/
def achar (header : List String) (prefixos : List String) : Option String :=
  prefixos.findSome? (fun pref => header.find? (fun h => comecaCom (normCab h) pref.toList))

/-- Source `_mapear_colunas(header)`: `data` and `precip` are mandatory
(`KeyError` with the source's message otherwise, modelled by `.error`);
the five remaining columns are optional, `maxima`/`minima` falling back to
a literal name and the others to the empty string. -/
def _mapear_colunas (header : List String) : Except String ColumnMap :=
  match achar header ["data"] with
  | none => .error "Coluna 'data' não encontrada no CSV."
  | some cData =>
    match achar header ["precip", "precipit"] with
    | none => .error "Coluna de precipitação não encontrada (ex.: 'precip')."
    | some cPrecip =>
      .ok
        { data := cData
          precip := cPrecip
          maxima := (achar header ["maxima", "tmax", "temp_max"]).getD
            ((achar header ["max"]).getD "maxima")
          minima := (achar header ["minima", "tmin", "temp_min"]).getD
            ((achar header ["min"]).getD "minima")
          temp_media :=
            (achar header ["temp_media", "tmed", "tempmed", "temperatura média", "media"]).getD ""
          um_relativa := (achar header ["um_relativa", "umidade", "ur"]).getD ""
          vel_vento := (achar header ["vel", "vento", "vel_vento", "velocidade"]).getD "" }

/-! ### Record loader -/

/-- One CSV data row as the dict `csv.DictReader` yields: header name to
cell text. `lookup` mirrors `lin[k]` / `lin.get(k, "")`. -/
def Row := List (String × String)

/-- Python `lin.get(k, "")`. -/
def Row.get (lin : Row) (k : String) : String :=
  (List.lookup k lin).getD ""

/-- The record built from a row once its date has parsed: each numeric field
is `_to_float` of its own cell, the unresolved optional columns (empty name
in the map) staying `None` without coercion. -/
def registro_de (mapa : ColumnMap) (lin : Row) (d : Date) : Registro PyFloat :=
  { data := d
    precip := _to_float (lin.get mapa.precip)
    maxima := if mapa.maxima ≠ "" then _to_float (lin.get mapa.maxima) else none
    minima := if mapa.minima ≠ "" then _to_float (lin.get mapa.minima) else none
    temp_media := if mapa.temp_media ≠ "" then _to_float (lin.get mapa.temp_media) else none
    um_relativa := if mapa.um_relativa ≠ "" then _to_float (lin.get mapa.um_relativa) else none
    vel_vento := if mapa.vel_vento ≠ "" then _to_float (lin.get mapa.vel_vento) else none }

/-- The body of the loader's row loop: parse the date cell inside `try`,
`continue` (yield nothing) when it fails, otherwise build the record. -/
def montar_registro (mapa : ColumnMap) (lin : Row) : Option (Registro PyFloat) :=
  match (List.lookup mapa.data lin).bind parse_data_br with
  | none => none
  | some d => some (registro_de mapa lin d)

/-- One iteration of the loader's row loop: skip, or `registros.append(reg)`. -/
def passo_carga (mapa : ColumnMap) (registros : List (Registro PyFloat)) (lin : Row) :
    List (Registro PyFloat) :=
  match montar_registro mapa lin with
  | none => registros
  | some reg => registros ++ [reg]

/-- The loader's row loop: `registros.append(reg)` for each row whose date
parses, skipping the others. -/
def carregar_linhas (mapa : ColumnMap) (linhas : List Row) : List (Registro PyFloat) :=
  linhas.foldl (passo_carga mapa) []

/-- Source `carregar_dados_csv` past the file I/O: resolve the header (a
`KeyError` propagates), then run the row loop. -/
def carregar_dados_csv (header : List String) (linhas : List Row) :
    Except String (List (Registro PyFloat)) :=
  match _mapear_colunas header with
  | .error e => .error e
  | .ok mapa => .ok (carregar_linhas mapa linhas)

/-! ### Specification-side definitions

Independent restatements of the spec's quantities, to compare the source
functions against. -/

/-- The precipitation total of a (year, month) group, as the spec words it:
the sum of the present precipitation values of the records dated in that
(year, month). -/
def somaPrecipMes (registros : List (Registro ℚ)) (k : Int × Int) : ℚ :=
  (registros.filterMap
    (fun r => if (r.data.year, r.data.month) = k then r.precip else none)).sum

/-- The present minimum-temperature observations for a given month and year,
in record order. -/
def minimaDe (registros : List (Registro ℚ)) (mes ano : Int) : List ℚ :=
  registros.filterMap
    (fun r => if r.data.year = ano ∧ r.data.month = mes then r.minima else none)

/-- Lookup by key in an association list (first hit). -/
def valor (m : List ((Int × Int) × ℚ)) (k : Int × Int) : Option ℚ :=
  match m with
  | [] => none
  | (k', v) :: rest => if k' = k then some v else valor rest k

/-- Lookup with the `0.0` default used by `soma_por_mes.get(chave, 0.0)`. -/
def valorQ (m : List ((Int × Int) × ℚ)) (k : Int × Int) : ℚ :=
  (valor m k).getD 0

/-! ### Supporting definitions for the claim theorems -/

/-- One step of the `soma_por_mes` loop. -/
def passo_soma (m : List ((Int × Int) × ℚ)) (r : Registro ℚ) : List ((Int × Int) × ℚ) :=
  match r.precip with
  | none => m
  | some p => atualizar m (r.data.year, r.data.month) p

/-- Concrete record list for the C2 witness. -/
def regsC2 : List (Registro ℚ) :=
  [⟨⟨2010, 1, 1⟩, some 10, none, none, none, none, none⟩,
   ⟨⟨2010, 1, 2⟩, none, none, none, none, none, none⟩,
   ⟨⟨2010, 1, 3⟩, some (11/2), none, none, none, none, none⟩,
   ⟨⟨2010, 2, 1⟩, some 3, none, none, none, none, none⟩]

/-- Concrete record list with two (year, month) groups of equal total. -/
def regsEmpate : List (Registro ℚ) :=
  [⟨⟨2010, 1, 10⟩, some 5, none, none, none, none, none⟩,
   ⟨⟨2010, 2, 15⟩, some 5, none, none, none, none, none⟩]

/-- Concrete record list whose only present precipitation values are zero. -/
def regsZero : List (Registro ℚ) :=
  [⟨⟨2010, 1, 5⟩, some 0, none, none, none, none, none⟩,
   ⟨⟨2010, 1, 8⟩, some 0, none, none, none, none, none⟩,
   ⟨⟨2010, 2, 3⟩, none, none, none, none, none, none⟩]

/-- One step of the `vals` accumulation loop. -/
def passo_vals (mes : Int) (vals : Int → List ℚ) (r : Registro ℚ) : Int → List ℚ :=
  if (2006 ≤ r.data.year ∧ r.data.year ≤ 2016) ∧ r.data.month = mes then
    match r.minima with
    | some v => fun y => if y = r.data.year then vals y ++ [v] else vals y
    | none => vals
  else vals

/-- Concrete record list for the C5 witness: July 2006 minima 10.0 and 12.0,
one out-of-window year, one missing minima. -/
def regsC5 : List (Registro ℚ) :=
  [⟨⟨2006, 7, 1⟩, none, none, some 10, none, none, none⟩,
   ⟨⟨2006, 7, 2⟩, none, none, some 12, none, none, none⟩,
   ⟨⟨2006, 7, 3⟩, none, none, none, none, none, none⟩,
   ⟨⟨2000, 7, 1⟩, none, none, some 99, none, none, none⟩]

/-- The claim's inclusion test, as a proposition: the pair (year, month)
compared lexicographically against the start and end pairs, inclusively. -/
def NoIntervalo (d : Date) (mes_ini ano_ini mes_fim ano_fim : Int) : Prop :=
  (ano_ini < d.year ∨ (ano_ini = d.year ∧ mes_ini ≤ d.month)) ∧
  (d.year < ano_fim ∨ (d.year = ano_fim ∧ d.month ≤ mes_fim))

instance (d : Date) (mi ai mf af : Int) : Decidable (NoIntervalo d mi ai mf af) := by
  unfold NoIntervalo
  infer_instance

/-- Ascending-by-date, as a proposition: lexicographic on (year, month, day). -/
def DataLe (d e : Date) : Prop :=
  d.year < e.year ∨ (d.year = e.year ∧ (d.month < e.month ∨ (d.month = e.month ∧ d.day ≤ e.day)))

/-- Column map and rows used by the C7 witness. -/
def mapaT : ColumnMap := ⟨"data", "precip", "maxima", "minima", "", "", ""⟩

/-- Three rows: a good date, the malformed date of Scenario E, a good date. -/
def linhasT : List Row :=
  [[("data", "01/01/2000"), ("precip", "10")],
   [("data", "31/13/2000"), ("precip", "4")],
   [("data", "02/01/2000"), ("precip", "")]]

/-- A row with a good date and every numeric cell blank or malformed. -/
def linC9 : Row :=
  [("data", "01/02/2003"), ("precip", "abc"), ("maxima", ""), ("minima", "x1")]

/-- Left strip. -/
def lstrip (cs : List Char) : List Char := cs.dropWhile pySpace

/-- Right strip. -/
def rstrip (cs : List Char) : List Char := (cs.reverse.dropWhile pySpace).reverse

/-- The nan token: an optional sign followed by case-insensitive `nan`
(what Python's `float()` accepts as NaN). -/
def TokenNan (cs : List Char) : Prop :=
  pyLower (readSign cs).2 = ['n', 'a', 'n']

instance (cs : List Char) : Decidable (TokenNan cs) := by
  unfold TokenNan
  infer_instance

/-! ### Association-list lemmas for `soma_por_mes` -/

theorem valor_atualizar_self (m : List ((Int × Int) × ℚ)) (k : Int × Int) (p : ℚ) :
    valor (atualizar m k p) k = some (valorQ m k + p) := by
  induction m with
  | nil => simp [atualizar, valor, valorQ]
  | cons e rest ih =>
    obtain ⟨k', v⟩ := e
    by_cases hk : k' = k
    · subst hk
      simp [atualizar, valor, valorQ]
    · simp [atualizar, valor, valorQ, hk, ih]

theorem valor_atualizar_other (m : List ((Int × Int) × ℚ)) (k k' : Int × Int) (p : ℚ)
    (hne : k' ≠ k) : valor (atualizar m k p) k' = valor m k' := by
  have hkk : ¬(k = k') := fun h => hne h.symm
  induction m with
  | nil =>
    simp only [atualizar, valor]
    rw [if_neg hkk]
  | cons e rest ih =>
    obtain ⟨k₀, v⟩ := e
    by_cases hk : k₀ = k
    · subst hk
      have hk₀ : ¬(k₀ = k') := fun h => hne h.symm
      simp only [atualizar, if_pos rfl, valor]
      rw [if_neg hk₀, if_neg hk₀]
    · by_cases hk' : k₀ = k'
      · simp only [atualizar, if_neg hk, valor]
        rw [if_pos hk', if_pos hk']
      · simp only [atualizar, if_neg hk, valor]
        rw [if_neg hk', if_neg hk']
        exact ih

theorem mem_chaves_atualizar (m : List ((Int × Int) × ℚ)) (k k' : Int × Int) (p : ℚ) :
    k' ∈ (atualizar m k p).map Prod.fst ↔ k' ∈ m.map Prod.fst ∨ k' = k := by
  induction m with
  | nil => simp [atualizar]
  | cons e rest ih =>
    obtain ⟨k₀, v⟩ := e
    by_cases hk : k₀ = k
    · subst hk
      simp [atualizar]
      tauto
    · simp [atualizar, hk, ih]
      tauto

theorem nodup_chaves_atualizar (m : List ((Int × Int) × ℚ)) (k : Int × Int) (p : ℚ)
    (h : (m.map Prod.fst).Nodup) : ((atualizar m k p).map Prod.fst).Nodup := by
  induction m with
  | nil => simp [atualizar]
  | cons e rest ih =>
    obtain ⟨k₀, v⟩ := e
    simp only [List.map_cons, List.nodup_cons] at h
    by_cases hk : k₀ = k
    · subst hk
      have hred : atualizar ((k₀, v) :: rest) k₀ p = (k₀, v + p) :: rest := by
        simp [atualizar]
      rw [hred]
      simp only [List.map_cons, List.nodup_cons]
      exact h
    · simp only [atualizar, if_neg hk, List.map_cons, List.nodup_cons]
      refine ⟨?_, ih h.2⟩
      intro hmem
      rcases (mem_chaves_atualizar rest k k₀ p).1 hmem with h1 | h1
      · exact h.1 h1
      · exact hk h1

theorem valor_of_mem (m : List ((Int × Int) × ℚ)) (k : Int × Int) (v : ℚ)
    (hnd : (m.map Prod.fst).Nodup) (hmem : (k, v) ∈ m) : valor m k = some v := by
  induction m with
  | nil => simp at hmem
  | cons e rest ih =>
    obtain ⟨k₀, v₀⟩ := e
    simp only [List.map_cons, List.nodup_cons] at hnd
    rcases List.mem_cons.1 hmem with h | h
    · have h1 : k = k₀ := congrArg Prod.fst h
      have h2 : v = v₀ := congrArg Prod.snd h
      subst h1
      subst h2
      simp [valor]
    · by_cases hk : k₀ = k
      · subst hk
        exact absurd (List.mem_map.2 ⟨(k₀, v), h, rfl⟩) hnd.1
      · simp only [valor, if_neg hk]
        exact ih hnd.2 h

theorem mem_of_valor (m : List ((Int × Int) × ℚ)) (k : Int × Int) (v : ℚ)
    (h : valor m k = some v) : (k, v) ∈ m := by
  induction m with
  | nil => simp [valor] at h
  | cons e rest ih =>
    obtain ⟨k₀, v₀⟩ := e
    by_cases hk : k₀ = k
    · subst hk
      simp [valor] at h
      subst h
      exact List.mem_cons_self ..
    · simp only [valor, if_neg hk] at h
      exact List.mem_cons_of_mem _ (ih h)

theorem soma_por_mes_eq_foldl (registros : List (Registro ℚ)) :
    soma_por_mes registros = registros.foldl passo_soma [] := by
  rfl

theorem valorQ_foldl_passo_soma (registros : List (Registro ℚ)) :
    ∀ (m : List ((Int × Int) × ℚ)) (k : Int × Int),
      valorQ (registros.foldl passo_soma m) k = valorQ m k + somaPrecipMes registros k := by
  induction registros with
  | nil => intro m k; simp [somaPrecipMes, valorQ]
  | cons r rest ih =>
    intro m k
    rw [List.foldl_cons, ih]
    have hsum : somaPrecipMes (r :: rest) k =
        (if (r.data.year, r.data.month) = k then (r.precip.getD 0) else 0) +
          somaPrecipMes rest k := by
      cases hp : r.precip with
      | none =>
        simp only [somaPrecipMes, List.filterMap_cons, hp]
        by_cases hk : (r.data.year, r.data.month) = k <;> simp [hk]
      | some p =>
        simp only [somaPrecipMes, List.filterMap_cons, hp]
        by_cases hk : (r.data.year, r.data.month) = k <;> simp [hk]
    rw [hsum]
    cases hp : r.precip with
    | none => simp [passo_soma, hp]
    | some p =>
      simp only [passo_soma, hp, Option.getD_some]
      by_cases hk : (r.data.year, r.data.month) = k
      · subst hk
        rw [valorQ, valor_atualizar_self, Option.getD_some]
        rw [if_pos rfl]
        unfold valorQ
        ring
      · rw [valorQ, valor_atualizar_other _ _ _ _ (fun h => hk h.symm), if_neg hk]
        unfold valorQ
        ring

theorem chaves_foldl_passo_soma (registros : List (Registro ℚ)) :
    ∀ (m : List ((Int × Int) × ℚ)) (k : Int × Int),
      k ∈ (registros.foldl passo_soma m).map Prod.fst ↔
        k ∈ m.map Prod.fst ∨
          ∃ r ∈ registros, r.precip ≠ none ∧ (r.data.year, r.data.month) = k := by
  induction registros with
  | nil => intro m k; simp
  | cons r rest ih =>
    intro m k
    rw [List.foldl_cons, ih]
    cases hp : r.precip with
    | none => simp [passo_soma, hp]
    | some p =>
      simp only [passo_soma, hp]
      rw [mem_chaves_atualizar]
      simp only [List.mem_cons]
      constructor
      · rintro ((h | h) | h)
        · exact .inl h
        · exact .inr ⟨r, .inl rfl, by simp [hp], h.symm⟩
        · obtain ⟨r', hr', h1, h2⟩ := h
          exact .inr ⟨r', .inr hr', h1, h2⟩
      · rintro (h | ⟨r', hr' | hr', h1, h2⟩)
        · exact .inl (.inl h)
        · subst hr'
          exact .inl (.inr h2.symm)
        · exact .inr ⟨r', hr', h1, h2⟩

theorem nodup_chaves_foldl_passo_soma (registros : List (Registro ℚ)) :
    ∀ (m : List ((Int × Int) × ℚ)), (m.map Prod.fst).Nodup →
      ((registros.foldl passo_soma m).map Prod.fst).Nodup := by
  induction registros with
  | nil => intro m h; simpa using h
  | cons r rest ih =>
    intro m h
    rw [List.foldl_cons]
    refine ih _ ?_
    cases hp : r.precip with
    | none => simpa [passo_soma, hp] using h
    | some p =>
      simp only [passo_soma, hp]
      exact nodup_chaves_atualizar _ _ _ h

/-- Python `max(items, key=...)` on a nonempty list returns its first maximal
element: everything before it is strictly smaller, everything after is no
larger. -/
theorem foldl_max_first (xs : List ((Int × Int) × ℚ)) :
    ∀ acc : (Int × Int) × ℚ,
      (xs.foldl (fun a y => if a.2 < y.2 then y else a) acc = acc ∧
        ∀ e ∈ xs, e.2 ≤ acc.2) ∨
      (∃ l1 l2, xs = l1 ++ (xs.foldl (fun a y => if a.2 < y.2 then y else a) acc) :: l2 ∧
        acc.2 < (xs.foldl (fun a y => if a.2 < y.2 then y else a) acc).2 ∧
        (∀ e ∈ l1, e.2 < (xs.foldl (fun a y => if a.2 < y.2 then y else a) acc).2) ∧
        (∀ e ∈ l2, e.2 ≤ (xs.foldl (fun a y => if a.2 < y.2 then y else a) acc).2)) := by
  induction xs with
  | nil => intro acc; exact .inl ⟨rfl, by simp⟩
  | cons y ys ih =>
    intro acc
    by_cases hy : acc.2 < y.2
    · rw [List.foldl_cons, if_pos hy]
      rcases ih y with ⟨heq, hall⟩ | ⟨l1, l2, hsplit, hlt, hbefore, hafter⟩
      · refine .inr ⟨[], ys, ?_, ?_, by simp, ?_⟩
        · rw [heq]; simp
        · rw [heq]; exact hy
        · rw [heq]; exact hall
      · refine .inr ⟨y :: l1, l2, ?_, lt_trans hy hlt, ?_, hafter⟩
        · rw [List.cons_append, ← hsplit]
        · intro e he
          rcases List.mem_cons.1 he with rfl | he
          · exact hlt
          · exact hbefore e he
    · rw [List.foldl_cons, if_neg hy]
      rcases ih acc with ⟨heq, hall⟩ | ⟨l1, l2, hsplit, hlt, hbefore, hafter⟩
      · refine .inl ⟨heq, ?_⟩
        intro e he
        rcases List.mem_cons.1 he with rfl | he
        · exact le_of_not_lt hy
        · exact hall e he
      · refine .inr ⟨y :: l1, l2, ?_, hlt, ?_, hafter⟩
        · rw [List.cons_append, ← hsplit]
        · intro e he
          rcases List.mem_cons.1 he with rfl | he
          · exact lt_of_le_of_lt (le_of_not_lt hy) hlt
          · exact hbefore e he

theorem max_by_snd_first (l : List ((Int × Int) × ℚ)) (m : (Int × Int) × ℚ)
    (h : max_by_snd l = some m) :
    ∃ l1 l2, l = l1 ++ m :: l2 ∧ (∀ e ∈ l1, e.2 < m.2) ∧ (∀ e ∈ l2, e.2 ≤ m.2) := by
  cases l with
  | nil => simp [max_by_snd] at h
  | cons x xs =>
    simp only [max_by_snd, Option.some.injEq] at h
    rcases foldl_max_first xs x with ⟨heq, hall⟩ | ⟨l1, l2, hsplit, hlt, hbefore, hafter⟩
    · rw [heq] at h
      subst h
      exact ⟨[], xs, by simp, by simp, hall⟩
    · rw [h] at hsplit hlt hbefore hafter
      refine ⟨x :: l1, l2, by rw [List.cons_append, ← hsplit], ?_, hafter⟩
      intro e he
      rcases List.mem_cons.1 he with rfl | he
      · exact hlt
      · exact hbefore e he

theorem max_by_snd_mem_le (l : List ((Int × Int) × ℚ)) (m : (Int × Int) × ℚ)
    (h : max_by_snd l = some m) : m ∈ l ∧ ∀ e ∈ l, e.2 ≤ m.2 := by
  obtain ⟨l1, l2, hsplit, hbefore, hafter⟩ := max_by_snd_first l m h
  subst hsplit
  refine ⟨List.mem_append.2 (.inr (List.mem_cons_self ..)), ?_⟩
  intro e he
  rcases List.mem_append.1 he with he | he
  · exact le_of_lt (hbefore e he)
  · rcases List.mem_cons.1 he with rfl | he
    · exact le_refl _
    · exact hafter e he

/-! ### Claim theorems: wettest month -/

/-- C2: for every record list containing at least one record with a present
precipitation value, `mes_mais_chuvoso` returns a triple (year, month, total)
where `total` is the sum of the present (non-`None`) precipitation values of
the records dated in that (year, month) — `None` values contribute nothing to
any group — and `total` is at least the summed precipitation of every other
(year, month) group. -/
theorem mes_mais_chuvoso_correto (registros : List (Registro ℚ))
    (h : ∃ r ∈ registros, r.precip ≠ none) :
    ∃ ano mes total, mes_mais_chuvoso registros = .ok (ano, mes, total) ∧
      total = somaPrecipMes registros (ano, mes) ∧
      ∀ ano' mes',
        (∃ r ∈ registros, r.precip ≠ none ∧ r.data.year = ano' ∧ r.data.month = mes') →
        somaPrecipMes registros (ano', mes') ≤ total := by
  obtain ⟨r0, hr0, hp0⟩ := h
  have hnd : ((soma_por_mes registros).map Prod.fst).Nodup := by
    rw [soma_por_mes_eq_foldl]
    exact nodup_chaves_foldl_passo_soma registros [] (by simp)
  have hk0 : (r0.data.year, r0.data.month) ∈ (soma_por_mes registros).map Prod.fst := by
    rw [soma_por_mes_eq_foldl]
    exact (chaves_foldl_passo_soma registros [] _).2 (.inr ⟨r0, hr0, hp0, rfl⟩)
  have hne : soma_por_mes registros ≠ [] := by
    intro hnil
    rw [hnil] at hk0
    simp at hk0
  obtain ⟨m, hm⟩ : ∃ m, max_by_snd (soma_por_mes registros) = some m := by
    cases hl : soma_por_mes registros with
    | nil => exact absurd hl hne
    | cons a as => exact ⟨_, rfl⟩
  obtain ⟨⟨ano, mes⟩, total⟩ := m
  obtain ⟨hmem, hle⟩ := max_by_snd_mem_le _ _ hm
  have valCalc : ∀ k : Int × Int, valorQ (soma_por_mes registros) k = somaPrecipMes registros k := by
    intro k
    have hQ := valorQ_foldl_passo_soma registros [] k
    rw [← soma_por_mes_eq_foldl] at hQ
    have h0 : valorQ ([] : List ((Int × Int) × ℚ)) k = 0 := rfl
    rw [h0, zero_add] at hQ
    exact hQ
  refine ⟨ano, mes, total, ?_, ?_, ?_⟩
  · simp [mes_mais_chuvoso, hm]
  · have hv : valor (soma_por_mes registros) (ano, mes) = some total :=
      valor_of_mem _ _ _ hnd hmem
    have : valorQ (soma_por_mes registros) (ano, mes) = total := by
      simp only [valorQ]
      rw [hv]
      rfl
    rw [← this, valCalc]
  · rintro ano' mes' ⟨r', hr', hp', hy', hm'⟩
    have hk' : (ano', mes') ∈ (soma_por_mes registros).map Prod.fst := by
      rw [soma_por_mes_eq_foldl]
      exact (chaves_foldl_passo_soma registros [] _).2 (.inr ⟨r', hr', hp', by rw [hy', hm']⟩)
    obtain ⟨⟨k', v'⟩, hmem', hfst⟩ := List.mem_map.1 hk'
    simp only at hfst
    subst hfst
    have hv' : valor (soma_por_mes registros) (ano', mes') = some v' :=
      valor_of_mem _ _ _ hnd hmem'
    have : somaPrecipMes registros (ano', mes') = v' := by
      rw [← valCalc]
      simp only [valorQ]
      rw [hv']
      rfl
    rw [this]
    exact hle _ hmem'

/-- C2 witness: the theorem applied to a concrete record list with present
and missing precipitation values. -/
theorem mes_mais_chuvoso_correto_aplicado :
    (∃ r ∈ regsC2, r.precip ≠ none) ∧
    (∃ ano mes total, mes_mais_chuvoso regsC2 = .ok (ano, mes, total) ∧
      total = somaPrecipMes regsC2 (ano, mes) ∧
      ∀ ano' mes',
        (∃ r ∈ regsC2, r.precip ≠ none ∧ r.data.year = ano' ∧ r.data.month = mes') →
        somaPrecipMes regsC2 (ano', mes') ≤ total) :=
  ⟨by decide, mes_mais_chuvoso_correto regsC2 (by decide)⟩

/-- C3 counterexample: on a list whose grouping holds January 2010 and then
February 2010 with the same total 5.0, the group encountered last in the
grouping's iteration order is February, yet `mes_mais_chuvoso` returns
January — Python `max` keeps the first maximal element, not the last. -/
theorem mes_mais_chuvoso_empate_contraexemplo :
    soma_por_mes regsEmpate = [((2010, 1), 5), ((2010, 2), 5)] ∧
    (soma_por_mes regsEmpate).getLast? = some ((2010, 2), 5) ∧
    mes_mais_chuvoso regsEmpate = .ok (2010, 1, 5) :=
  ⟨rfl, rfl, rfl⟩

/-- C3 amended: when several (year, month) groups share the maximal total,
`mes_mais_chuvoso` returns the group encountered first in the iteration
order used to build the grouping: every group before the returned one has a
strictly smaller total, every group after it a total no larger. -/
theorem mes_mais_chuvoso_empate_primeiro (registros : List (Registro ℚ))
    (ano mes : Int) (total : ℚ)
    (h : mes_mais_chuvoso registros = .ok (ano, mes, total)) :
    ∃ l1 l2, soma_por_mes registros = l1 ++ ((ano, mes), total) :: l2 ∧
      (∀ e ∈ l1, e.2 < total) ∧ (∀ e ∈ l2, e.2 ≤ total) := by
  unfold mes_mais_chuvoso at h
  cases hmax : max_by_snd (soma_por_mes registros) with
  | none =>
    rw [hmax] at h
    exact absurd h (by simp)
  | some m =>
    obtain ⟨⟨a, b⟩, t⟩ := m
    rw [hmax] at h
    simp only [Except.ok.injEq, Prod.mk.injEq] at h
    obtain ⟨rfl, rfl, rfl⟩ := h
    exact max_by_snd_first _ _ hmax

/-- C3 witness: the amended theorem applied to the concrete tied list. -/
theorem mes_mais_chuvoso_empate_primeiro_aplicado :
    ∃ l1 l2, soma_por_mes regsEmpate = l1 ++ ((2010, 1), (5 : ℚ)) :: l2 ∧
      (∀ e ∈ l1, e.2 < 5) ∧ (∀ e ∈ l2, e.2 ≤ 5) :=
  mes_mais_chuvoso_empate_primeiro regsEmpate 2010 1 5 rfl

/-- C10: a precipitation value of exactly 0.0 counts as a valid observation:
a (year, month) whose present precipitation values are all 0.0 appears in the
grouping with total 0.0, and `mes_mais_chuvoso` succeeds on such a list,
returning total 0.0 instead of the no-valid-data error. -/
theorem mes_mais_chuvoso_zero_valido :
    soma_por_mes regsZero = [((2010, 1), 0)] ∧
    mes_mais_chuvoso regsZero = .ok (2010, 1, 0) := by
  have h : soma_por_mes regsZero = [((2010, 1), 0)] := by
    norm_num [regsZero, soma_por_mes, atualizar]
  refine ⟨h, ?_⟩
  simp only [mes_mais_chuvoso, h, max_by_snd, List.foldl_nil]

/-! ### Claim theorems: minimum-temperature averages -/

theorem vals_minimas_eq_foldl (registros : List (Registro ℚ)) (mes : Int) :
    vals_minimas registros mes = registros.foldl (passo_vals mes) (fun _ => []) := by
  rfl

theorem foldl_passo_vals (mes : Int) (registros : List (Registro ℚ)) :
    ∀ (acc : Int → List ℚ) (y : Int),
      registros.foldl (passo_vals mes) acc y =
        acc y ++ (if 2006 ≤ y ∧ y ≤ 2016 then minimaDe registros mes y else []) := by
  induction registros with
  | nil =>
    intro acc y
    simp [minimaDe]
  | cons r rest ih =>
    intro acc y
    rw [List.foldl_cons, ih]
    by_cases hg : (2006 ≤ r.data.year ∧ r.data.year ≤ 2016) ∧ r.data.month = mes
    · cases hv : r.minima with
      | none =>
        have hA : passo_vals mes acc r = acc := by
          simp [passo_vals, hg, hv]
        have hmin : minimaDe (r :: rest) mes y = minimaDe rest mes y := by
          by_cases hc : r.data.year = y ∧ r.data.month = mes <;>
            simp [minimaDe, List.filterMap_cons, hc, hv]
        rw [hA, hmin]
      | some v =>
        by_cases hy : y = r.data.year
        · have hA : (passo_vals mes acc r) y = acc y ++ [v] := by
            simp [passo_vals, hg, hv, hy]
          have hwin : 2006 ≤ y ∧ y ≤ 2016 := by
            rw [hy]; exact hg.1
          have hmin : minimaDe (r :: rest) mes y = v :: minimaDe rest mes y := by
            simp [minimaDe, List.filterMap_cons, hy.symm, hg.2, hv]
          rw [hA, if_pos hwin, if_pos hwin, hmin, List.append_assoc]
          simp
        · have hA : (passo_vals mes acc r) y = acc y := by
            simp [passo_vals, hg, hv, fun h : y = r.data.year => hy h]
          have hmin : minimaDe (r :: rest) mes y = minimaDe rest mes y := by
            have hc : ¬(r.data.year = y ∧ r.data.month = mes) := by
              rintro ⟨hc1, _⟩
              exact hy hc1.symm
            simp [minimaDe, List.filterMap_cons, hc]
          rw [hA, hmin]
    · have hA : passo_vals mes acc r = acc := by
        simp [passo_vals, hg]
      by_cases hwin : 2006 ≤ y ∧ y ≤ 2016
      · have hc : ¬(r.data.year = y ∧ r.data.month = mes) := by
          rintro ⟨hc1, hc2⟩
          exact hg ⟨hc1 ▸ hwin, hc2⟩
        have hmin : minimaDe (r :: rest) mes y = minimaDe rest mes y := by
          simp [minimaDe, List.filterMap_cons, hc]
        rw [hA, hmin]
      · rw [hA, if_neg hwin, if_neg hwin]

theorem mem_anos_janela (y : Int) : y ∈ anos_janela ↔ 2006 ≤ y ∧ y ≤ 2016 := by
  unfold anos_janela
  constructor
  · intro h
    obtain ⟨i, hi, hy⟩ := List.mem_map.1 h
    have hr : i < 11 := List.mem_range.1 hi
    omega
  · intro h
    exact List.mem_map.2 ⟨(y - 2006).toNat, List.mem_range.2 (by omega), by omega⟩

/-- C5: for every record list and month in 1..12,
`medias_minimas_mes_2006_2016` succeeds and returns a map holding exactly
the years of the fixed 2006-2016 window with at least one record of that
year, that month and a present `minima`; each such year maps to the
arithmetic mean of those present `minima` values. -/
theorem medias_minimas_correto (registros : List (Registro ℚ)) (mes : Int)
    (h1 : 1 ≤ mes) (h2 : mes ≤ 12) :
    ∃ mp, medias_minimas_mes_2006_2016 registros mes = .ok mp ∧
      (∀ ano q, (ano, q) ∈ mp →
        (2006 ≤ ano ∧ ano ≤ 2016) ∧
        (∃ r ∈ registros, r.data.year = ano ∧ r.data.month = mes ∧ r.minima ≠ none) ∧
        q = (minimaDe registros mes ano).sum / (minimaDe registros mes ano).length) ∧
      (∀ ano, 2006 ≤ ano → ano ≤ 2016 →
        (∃ r ∈ registros, r.data.year = ano ∧ r.data.month = mes ∧ r.minima ≠ none) →
        ∃ q, (ano, q) ∈ mp) := by
  have hvals : ∀ y, 2006 ≤ y → y ≤ 2016 →
      vals_minimas registros mes y = minimaDe registros mes y := by
    intro y hy1 hy2
    rw [vals_minimas_eq_foldl, foldl_passo_vals, if_pos ⟨hy1, hy2⟩]
    simp
  have hex : ∀ ano, (minimaDe registros mes ano ≠ []) ↔
      (∃ r ∈ registros, r.data.year = ano ∧ r.data.month = mes ∧ r.minima ≠ none) := by
    intro ano
    rw [ne_eq]
    simp only [minimaDe]
    rw [List.filterMap_eq_nil_iff]
    constructor
    · intro hne
      by_contra hno
      push_neg at hno
      apply hne
      intro r hr
      by_cases hc : r.data.year = ano ∧ r.data.month = mes
      · have := hno r hr hc.1 hc.2
        simp only [ne_eq, not_not] at this
        simp [hc, this]
      · simp [hc]
    · rintro ⟨r, hr, hy, hm, hmin⟩ hall
      have := hall r hr
      rw [if_pos ⟨hy, hm⟩] at this
      exact hmin this
  refine ⟨anos_janela.filterMap
      (fun ano =>
        if vals_minimas registros mes ano ≠ [] then
          some (ano, (vals_minimas registros mes ano).sum / (vals_minimas registros mes ano).length)
        else none), ?_, ?_, ?_⟩
  · unfold medias_minimas_mes_2006_2016
    rw [if_neg (by push_neg; omega)]
  · intro ano q hmem
    obtain ⟨a, ha, hfa⟩ := List.mem_filterMap.1 hmem
    have hwin : 2006 ≤ a ∧ a ≤ 2016 := (mem_anos_janela a).1 ha
    by_cases hne : vals_minimas registros mes a ≠ []
    · rw [if_pos hne] at hfa
      have h1a : a = ano := congrArg Prod.fst (Option.some.inj hfa)
      have h2a : (vals_minimas registros mes a).sum / (vals_minimas registros mes a).length = q :=
        congrArg Prod.snd (Option.some.inj hfa)
      subst h1a
      rw [hvals a hwin.1 hwin.2] at hne h2a
      exact ⟨hwin, (hex a).1 hne, h2a.symm⟩
    · rw [if_neg hne] at hfa
      exact absurd hfa (by simp)
  · intro ano hy1 hy2 hrec
    have hne : vals_minimas registros mes ano ≠ [] := by
      rw [hvals ano hy1 hy2]
      exact (hex ano).2 hrec
    exact ⟨_, List.mem_filterMap.2 ⟨ano, (mem_anos_janela ano).2 ⟨hy1, hy2⟩, by rw [if_pos hne]⟩⟩

/-- C5 witness: the theorem applied to the concrete list and month 7. -/
theorem medias_minimas_correto_aplicado :
    (1 : Int) ≤ 7 ∧ (7 : Int) ≤ 12 ∧
    (∃ mp, medias_minimas_mes_2006_2016 regsC5 7 = .ok mp ∧
      (∀ ano q, (ano, q) ∈ mp →
        (2006 ≤ ano ∧ ano ≤ 2016) ∧
        (∃ r ∈ regsC5, r.data.year = ano ∧ r.data.month = 7 ∧ r.minima ≠ none) ∧
        q = (minimaDe regsC5 7 ano).sum / (minimaDe regsC5 7 ano).length) ∧
      (∀ ano, 2006 ≤ ano → ano ≤ 2016 →
        (∃ r ∈ regsC5, r.data.year = ano ∧ r.data.month = 7 ∧ r.minima ≠ none) →
        ∃ q, (ano, q) ∈ mp)) :=
  ⟨by norm_num, by norm_num, medias_minimas_correto regsC5 7 (by norm_num) (by norm_num)⟩

/-! ### Claim theorems: interval filter -/

theorem dentro_periodo_eq_true_iff (d : Date) (mi ai mf af : Int) :
    dentro_periodo d mi ai mf af = true ↔ NoIntervalo d mi ai mf af := by
  simp only [dentro_periodo, pairLe, NoIntervalo, Bool.and_eq_true, Bool.or_eq_true,
    decide_eq_true_eq]

theorem dentro_periodo_eq_decide (d : Date) (mi ai mf af : Int) :
    dentro_periodo d mi ai mf af = decide (NoIntervalo d mi ai mf af) := by
  by_cases h : NoIntervalo d mi ai mf af
  · rw [decide_eq_true h]
    exact (dentro_periodo_eq_true_iff d mi ai mf af).2 h
  · rw [decide_eq_false h]
    exact Bool.eq_false_iff.2 (fun hc => h ((dentro_periodo_eq_true_iff d mi ai mf af).1 hc))

theorem dateLe_eq_true_iff (d e : Date) : dateLe d e = true ↔ DataLe d e := by
  simp only [dateLe, DataLe, Bool.or_eq_true, Bool.and_eq_true, decide_eq_true_eq]

theorem dateLe_trans (a b c : Date) (h1 : dateLe a b = true) (h2 : dateLe b c = true) :
    dateLe a c = true := by
  rw [dateLe_eq_true_iff] at h1 h2 ⊢
  unfold DataLe at h1 h2 ⊢
  omega

theorem dateLe_total (a b : Date) : (dateLe a b || dateLe b a) = true := by
  rw [Bool.or_eq_true, dateLe_eq_true_iff, dateLe_eq_true_iff]
  unfold DataLe
  omega

/-- C1: for every record list and (startMonth, startYear, endMonth, endYear),
the interval filter returns exactly (as a permutation of) the records whose
(year, month) lies between the start and end pairs lexicographically, its
output is pairwise sorted ascending by date, and the inclusion test never
depends on the day of the month. -/
theorem filtrar_por_intervalo_correto (registros : List (Registro ℚ))
    (mes_ini ano_ini mes_fim ano_fim : Int) :
    (filtrar_por_intervalo registros mes_ini ano_ini mes_fim ano_fim).Perm
      (registros.filter (fun r => decide (NoIntervalo r.data mes_ini ano_ini mes_fim ano_fim))) ∧
    (filtrar_por_intervalo registros mes_ini ano_ini mes_fim ano_fim).Pairwise
      (fun r s => DataLe r.data s.data) ∧
    (∀ d : Date, ∀ dia : Int,
      dentro_periodo d mes_ini ano_ini mes_fim ano_fim =
        dentro_periodo ⟨d.year, d.month, dia⟩ mes_ini ano_ini mes_fim ano_fim) := by
  refine ⟨?_, ?_, fun d dia => rfl⟩
  · have hfil : registros.filter
        (fun r => dentro_periodo r.data mes_ini ano_ini mes_fim ano_fim) =
        registros.filter
          (fun r => decide (NoIntervalo r.data mes_ini ano_ini mes_fim ano_fim)) :=
      List.filter_congr (fun r _ => dentro_periodo_eq_decide r.data _ _ _ _)
    rw [filtrar_por_intervalo, hfil]
    exact List.mergeSort_perm _ _
  · have hs := @List.sorted_mergeSort (Registro ℚ)
      (fun r s : Registro ℚ => dateLe r.data s.data)
      (fun a b c => dateLe_trans a.data b.data c.data)
      (fun a b => dateLe_total a.data b.data)
      (registros.filter (fun r => dentro_periodo r.data mes_ini ano_ini mes_fim ano_fim))
    rw [filtrar_por_intervalo]
    exact hs.imp (fun h => (dateLe_eq_true_iff _ _).1 h)

/-! ### Claim theorems: record loader -/

theorem foldl_passo_carga (mapa : ColumnMap) (linhas : List Row) :
    ∀ acc : List (Registro PyFloat),
      linhas.foldl (passo_carga mapa) acc = acc ++ linhas.filterMap (montar_registro mapa) := by
  induction linhas with
  | nil => intro acc; simp
  | cons lin rest ih =>
    intro acc
    rw [List.foldl_cons]
    cases hm : montar_registro mapa lin with
    | none =>
      rw [show passo_carga mapa acc lin = acc by simp [passo_carga, hm]]
      rw [ih]
      simp [List.filterMap_cons, hm]
    | some reg =>
      rw [show passo_carga mapa acc lin = acc ++ [reg] by simp [passo_carga, hm]]
      rw [ih]
      simp [List.filterMap_cons, hm]

theorem length_filterMap_eq_countP {α β : Type} (f : α → Option β) (l : List α) :
    (l.filterMap f).length = l.countP (fun x => (f x).isSome) := by
  induction l with
  | nil => rfl
  | cons x xs ih =>
    rw [List.filterMap_cons, List.countP_cons]
    cases hf : f x with
    | none => simp [hf, ih]
    | some b => simp [hf, ih]

theorem montar_registro_eq_map (mapa : ColumnMap) (lin : Row) :
    montar_registro mapa lin =
      ((List.lookup mapa.data lin).bind parse_data_br).map (registro_de mapa lin) := by
  cases hd : (List.lookup mapa.data lin).bind parse_data_br <;>
    simp [montar_registro, hd]

/-- C7: rows whose date cell fails to parse are silently skipped and the
others each produce a record, in source order: the loader's loop equals a
`filterMap`, a row yields nothing exactly when its date cell fails to parse,
the output length counts the parseable-date rows, and the malformed date
`"31/13/2000"` of Scenario E indeed fails to parse. No error leaves the
loop: it is a total function into a record list. -/
theorem carregar_linhas_correto (mapa : ColumnMap) (linhas : List Row) :
    carregar_linhas mapa linhas = linhas.filterMap (montar_registro mapa) ∧
    (∀ lin : Row, montar_registro mapa lin = none ↔
      (List.lookup mapa.data lin).bind parse_data_br = none) ∧
    (carregar_linhas mapa linhas).length =
      linhas.countP (fun lin => ((List.lookup mapa.data lin).bind parse_data_br).isSome) ∧
    parse_data_br "31/13/2000" = none := by
  have h1 : carregar_linhas mapa linhas = linhas.filterMap (montar_registro mapa) := by
    rw [carregar_linhas, foldl_passo_carga]
    simp
  have h2 : ∀ lin : Row, montar_registro mapa lin = none ↔
      (List.lookup mapa.data lin).bind parse_data_br = none := by
    intro lin
    rw [montar_registro_eq_map]
    cases hd : (List.lookup mapa.data lin).bind parse_data_br <;> simp
  refine ⟨h1, h2, ?_, by rfl⟩
  rw [h1, length_filterMap_eq_countP]
  refine List.countP_congr ?_
  intro lin _
  rw [montar_registro_eq_map]
  cases hd : (List.lookup mapa.data lin).bind parse_data_br <;> simp

/-- C7 witness: the theorem applied to a concrete map and row list. -/
theorem carregar_linhas_correto_aplicado :
    carregar_linhas mapaT linhasT = linhasT.filterMap (montar_registro mapaT) ∧
    (∀ lin : Row, montar_registro mapaT lin = none ↔
      (List.lookup mapaT.data lin).bind parse_data_br = none) ∧
    (carregar_linhas mapaT linhasT).length =
      linhasT.countP (fun lin => ((List.lookup mapaT.data lin).bind parse_data_br).isSome) ∧
    parse_data_br "31/13/2000" = none :=
  carregar_linhas_correto mapaT linhasT

/-- C9: once a row's date parses, a record is always produced — whatever the
numeric cells hold — and each numeric field is the coercion of its own cell
alone (an unresolved optional column stays `None` without coercion), so a
failed coercion makes only that field `None` and leaves the others as given
by their own cells. -/
theorem montar_registro_campos (mapa : ColumnMap) (lin : Row) (d : Date)
    (h : (List.lookup mapa.data lin).bind parse_data_br = some d) :
    ∃ reg, montar_registro mapa lin = some reg ∧
      reg.data = d ∧
      reg.precip = _to_float (lin.get mapa.precip) ∧
      reg.maxima = (if mapa.maxima ≠ "" then _to_float (lin.get mapa.maxima) else none) ∧
      reg.minima = (if mapa.minima ≠ "" then _to_float (lin.get mapa.minima) else none) ∧
      reg.temp_media =
        (if mapa.temp_media ≠ "" then _to_float (lin.get mapa.temp_media) else none) ∧
      reg.um_relativa =
        (if mapa.um_relativa ≠ "" then _to_float (lin.get mapa.um_relativa) else none) ∧
      reg.vel_vento =
        (if mapa.vel_vento ≠ "" then _to_float (lin.get mapa.vel_vento) else none) := by
  refine ⟨registro_de mapa lin d, ?_, rfl, rfl, rfl, rfl, rfl, rfl, rfl⟩
  simp [montar_registro, h]

/-- C9 witness: on a row whose numeric cells are all blank or malformed, a
record is still produced and every numeric field is `None`. -/
theorem montar_registro_campos_aplicado :
    ((List.lookup mapaT.data linC9).bind parse_data_br = some ⟨2003, 2, 1⟩) ∧
    (∃ reg, montar_registro mapaT linC9 = some reg ∧
      reg.data = (⟨2003, 2, 1⟩ : Date) ∧
      reg.precip = _to_float (linC9.get mapaT.precip) ∧
      reg.maxima = (if mapaT.maxima ≠ "" then _to_float (linC9.get mapaT.maxima) else none) ∧
      reg.minima = (if mapaT.minima ≠ "" then _to_float (linC9.get mapaT.minima) else none) ∧
      reg.temp_media =
        (if mapaT.temp_media ≠ "" then _to_float (linC9.get mapaT.temp_media) else none) ∧
      reg.um_relativa =
        (if mapaT.um_relativa ≠ "" then _to_float (linC9.get mapaT.um_relativa) else none) ∧
      reg.vel_vento =
        (if mapaT.vel_vento ≠ "" then _to_float (linC9.get mapaT.vel_vento) else none)) :=
  ⟨rfl, montar_registro_campos mapaT linC9 ⟨2003, 2, 1⟩ rfl⟩

/-! ### Claim theorems: header resolution -/

theorem achar_eq_none_of (header prefixos : List String)
    (hall : ∀ pref ∈ prefixos, ∀ h ∈ header, comecaCom (normCab h) pref.toList = false) :
    achar header prefixos = none := by
  rw [achar, List.findSome?_eq_none_iff]
  intro pref hpref
  rw [List.find?_eq_none]
  intro h hh
  rw [hall pref hpref h hh]
  simp

theorem achar_isSome_of (header prefixos : List String) (pref : String)
    (hpref : pref ∈ prefixos)
    (hex : ∃ h ∈ header, comecaCom (normCab h) pref.toList = true) :
    ∃ c, achar header prefixos = some c := by
  have : (achar header prefixos).isSome = true := by
    rw [achar, List.findSome?_isSome_iff]
    exact ⟨pref, hpref, List.find?_isSome.2 hex⟩
  exact Option.isSome_iff_exists.1 this

/-- C8: when no header starts (case-insensitively, after trimming) with the
date prefix `data`, resolution fails with the error naming the `data`
column; when a date header exists but none starts with a precipitation
prefix (`precip`/`precipit`), it fails with the error naming precipitation;
and whenever both mandatory columns resolve, resolution succeeds — it never
fails on account of the five optional fields. -/
theorem _mapear_colunas_correto (header : List String) :
    ((∀ h ∈ header, comecaCom (normCab h) "data".toList = false) →
      _mapear_colunas header = .error "Coluna 'data' não encontrada no CSV.") ∧
    ((∃ h ∈ header, comecaCom (normCab h) "data".toList = true) →
      (∀ h ∈ header, comecaCom (normCab h) "precip".toList = false ∧
        comecaCom (normCab h) "precipit".toList = false) →
      _mapear_colunas header = .error "Coluna de precipitação não encontrada (ex.: 'precip').") ∧
    ((∃ h ∈ header, comecaCom (normCab h) "data".toList = true) →
      (∃ h ∈ header, comecaCom (normCab h) "precip".toList = true ∨
        comecaCom (normCab h) "precipit".toList = true) →
      ∃ m, _mapear_colunas header = .ok m) ∧
    (∀ (linhas : List Row) (e : String), _mapear_colunas header = .error e →
      carregar_dados_csv header linhas = .error e) := by
  refine ⟨?_, ?_, ?_, ?_⟩
  · intro hnone
    have hd : achar header ["data"] = none := by
      refine achar_eq_none_of header ["data"] ?_
      intro pref hpref h hh
      rcases List.mem_singleton.1 hpref with rfl
      exact hnone h hh
    simp [_mapear_colunas, hd]
  · intro hdata hprec
    obtain ⟨cData, hd⟩ := achar_isSome_of header ["data"] "data" (List.mem_singleton.2 rfl) hdata
    have hp : achar header ["precip", "precipit"] = none := by
      refine achar_eq_none_of header ["precip", "precipit"] ?_
      intro pref hpref h hh
      rcases List.mem_cons.1 hpref with rfl | hpref
      · exact (hprec h hh).1
      · rcases List.mem_singleton.1 hpref with rfl
        exact (hprec h hh).2
    simp [_mapear_colunas, hd, hp]
  · intro hdata hprec
    obtain ⟨cData, hd⟩ := achar_isSome_of header ["data"] "data" (List.mem_singleton.2 rfl) hdata
    obtain ⟨h₀, hh₀, hcase⟩ := hprec
    have hp : ∃ c, achar header ["precip", "precipit"] = some c := by
      cases hfind : List.find? (fun h => comecaCom (normCab h) "precip".toList) header with
      | some c =>
        exact ⟨c, by rw [achar, List.findSome?_cons, hfind]⟩
      | none =>
        rcases hcase with hc | hc
        · exact absurd hc (by
            have := List.find?_eq_none.1 hfind h₀ hh₀
            simpa using this)
        · refine achar_isSome_of header ["precip", "precipit"] "precipit" ?_ ⟨h₀, hh₀, hc⟩
          simp
    obtain ⟨cPrec, hp⟩ := hp
    refine ⟨⟨cData, cPrec,
      (achar header ["maxima", "tmax", "temp_max"]).getD ((achar header ["max"]).getD "maxima"),
      (achar header ["minima", "tmin", "temp_min"]).getD ((achar header ["min"]).getD "minima"),
      (achar header ["temp_media", "tmed", "tempmed", "temperatura média", "media"]).getD "",
      (achar header ["um_relativa", "umidade", "ur"]).getD "",
      (achar header ["vel", "vento", "vel_vento", "velocidade"]).getD ""⟩, ?_⟩
    simp [_mapear_colunas, hd, hp]
  · intro linhas e he
    rw [carregar_dados_csv, he]

/-- C8 witness: the cases at concrete headers — no date column, date without
precipitation (with the error propagating out of loading), and both
mandatory columns present with every optional column missing. -/
theorem _mapear_colunas_correto_aplicado :
    _mapear_colunas ["precip", "maxima"] = .error "Coluna 'data' não encontrada no CSV." ∧
    _mapear_colunas ["Data "] = .error "Coluna de precipitação não encontrada (ex.: 'precip')." ∧
    (∃ m, _mapear_colunas [" DATA", "Precipitacao"] = .ok m) ∧
    carregar_dados_csv ["Data "] [] =
      .error "Coluna de precipitação não encontrada (ex.: 'precip')." :=
  ⟨(_mapear_colunas_correto ["precip", "maxima"]).1 (by decide),
   (_mapear_colunas_correto ["Data "]).2.1 (by decide) (by decide),
   (_mapear_colunas_correto [" DATA", "Precipitacao"]).2.2.1 (by decide) (by decide),
   (_mapear_colunas_correto ["Data "]).2.2.2 [] _
     ((_mapear_colunas_correto ["Data "]).2.1 (by decide) (by decide))⟩

/-! ### Claim theorems: numeric cell coercion -/

theorem pyStripL_eq_rstrip_lstrip (cs : List Char) : pyStripL cs = rstrip (lstrip cs) := rfl

theorem rstrip_idem (cs : List Char) : rstrip (rstrip cs) = rstrip cs := by
  unfold rstrip
  rw [List.reverse_reverse, List.dropWhile_idempotent]

theorem rstrip_append (cs : List Char) : ∃ t, rstrip cs ++ t = cs := by
  obtain ⟨s, hs⟩ := @List.dropWhile_suffix Char cs.reverse pySpace
  refine ⟨s.reverse, ?_⟩
  have := congrArg List.reverse hs
  rw [List.reverse_append, List.reverse_reverse] at this
  exact this

theorem lstrip_rstrip_of_lstrip (cs : List Char) (h : lstrip cs = cs) :
    lstrip (rstrip cs) = rstrip cs := by
  cases hr : rstrip cs with
  | nil => rfl
  | cons c t =>
    obtain ⟨u, hu⟩ := rstrip_append cs
    rw [hr] at hu
    have hcs : cs = c :: (t ++ u) := by rw [← hu]; rfl
    rw [hcs] at h
    have hget := List.dropWhile_eq_self_iff.1 h (by simp)
    simp only [List.get] at hget
    unfold lstrip
    rw [List.dropWhile_cons, if_neg (by simpa using hget)]

theorem pyStripL_idem (cs : List Char) : pyStripL (pyStripL cs) = pyStripL cs := by
  rw [pyStripL_eq_rstrip_lstrip, pyStripL_eq_rstrip_lstrip,
    lstrip_rstrip_of_lstrip (lstrip cs) (List.dropWhile_idempotent _ _), rstrip_idem]

theorem pySpace_comma (c : Char) : pySpace (if c = ',' then '.' else c) = pySpace c := by
  by_cases h : c = ','
  · subst h; rfl
  · rw [if_neg h]

theorem pyStripL_commaToDot (l : List Char) :
    pyStripL (commaToDot l) = commaToDot (pyStripL l) := by
  have hpf : (pySpace ∘ fun c => if c = ',' then '.' else c) = pySpace :=
    funext pySpace_comma
  unfold pyStripL commaToDot
  rw [List.dropWhile_map, hpf, ← List.map_reverse, List.dropWhile_map, hpf, ← List.map_reverse]

theorem commaToDot_idem (l : List Char) : commaToDot (commaToDot l) = commaToDot l := by
  unfold commaToDot
  rw [List.map_map]
  congr 1
  funext c
  by_cases h : c = ','
  · subst h; rfl
  · simp [h]

/-- C6: `_to_float` trims surrounding whitespace (pre-stripping the text does
not change the result), normalises the decimal comma to a period (pre-replacing
commas does not change the result, and `"3,5"` parses like `"3.5"`), returns
`None` for the empty string, a single dash and a case-insensitive `na`, and
returns `None` — rather than raising — on any other text the float parser
rejects. -/
theorem _to_float_tolerante :
    (∀ s : String, _to_float ⟨pyStripL s.toList⟩ = _to_float s) ∧
    (∀ s : String, _to_float ⟨commaToDot s.toList⟩ = _to_float s) ∧
    _to_float "3,5" = _to_float "3.5" ∧
    _to_float "" = none ∧ _to_float "-" = none ∧
    _to_float "NA" = none ∧ _to_float "na" = none ∧
    _to_float "Na" = none ∧ _to_float "nA" = none ∧
    (∀ s : String, pyFloat? (commaToDot (pyStripL s.toList)) = none → _to_float s = none) := by
  refine ⟨?_, ?_, rfl, rfl, rfl, rfl, rfl, rfl, rfl, ?_⟩
  · intro s
    unfold _to_float
    rw [show (⟨pyStripL s.toList⟩ : String).toList = pyStripL s.toList from rfl, pyStripL_idem]
  · intro s
    unfold _to_float
    rw [show (⟨commaToDot s.toList⟩ : String).toList = commaToDot s.toList from rfl,
      pyStripL_commaToDot, commaToDot_idem]
  · intro s h
    show (if (decide (commaToDot (pyStripL s.toList) = []) ||
          decide (commaToDot (pyStripL s.toList) = ['-']) ||
          decide (pyLower (commaToDot (pyStripL s.toList)) = ['n', 'a'])) = true then none
        else pyFloat? (commaToDot (pyStripL s.toList))) = (none : Option PyFloat)
    split
    · rfl
    · exact h

/-- C6 witness: the non-numeric clause applied at the concrete text `"abc"`,
which the float parser rejects, and the trimming clause at `" 3.5 "`. -/
theorem _to_float_tolerante_aplicado :
    (pyFloat? (commaToDot (pyStripL "abc".toList)) = none ∧ _to_float "abc" = none) ∧
    _to_float ⟨pyStripL " 3.5 ".toList⟩ = _to_float " 3.5 " :=
  ⟨⟨rfl, _to_float_tolerante.2.2.2.2.2.2.2.2.2 "abc" rfl⟩,
   _to_float_tolerante.1 " 3.5 "⟩

/-- C4 counterexample: the cell text `"nan"` coerces to NaN — Python's
`float("nan")` succeeds — and `"inf"` to infinity, so a loaded record can
carry a NaN precipitation: loading a row whose precipitation cell is
`"nan"` produces a record whose `precip` field is NaN, not a finite number
and not `None`. -/
theorem _to_float_nan_contraexemplo :
    _to_float "nan" = some PyFloat.nan ∧
    _to_float "inf" = some (PyFloat.inf false) ∧
    carregar_dados_csv ["data", "precip"]
        [[("data", "01/01/2000"), ("precip", "nan")]] =
      .ok [{ data := ⟨2000, 1, 1⟩, precip := some PyFloat.nan, maxima := none, minima := none,
             temp_media := none, um_relativa := none, vel_vento := none }] :=
  ⟨rfl, rfl, rfl⟩

theorem length_readSign_snd (cs : List Char) :
    (readSign cs).2 = cs ∨ ∃ c t, cs = c :: t ∧ (readSign cs).2 = t := by
  cases cs with
  | nil => exact .inl rfl
  | cons c t =>
    by_cases h1 : c = '-'
    · subst h1
      exact .inr ⟨_, t, rfl, rfl⟩
    · by_cases h2 : c = '+'
      · subst h2
        exact .inr ⟨_, t, rfl, rfl⟩
      · refine .inl ?_
        show (readSign (c :: t)).2 = c :: t
        unfold readSign
        split
        · simp_all
        · simp_all
        · rfl

/-- C4 amended: each numeric field is a finite real, a signed infinity, NaN
or `None`; the coercion yields NaN exactly when the cell, after trimming and
comma normalisation, is an optional sign followed by a case-insensitive
`nan` token (finite decimal literals are modelled exactly; `float`'s
overflow of huge literals to infinity is elided). -/
theorem _to_float_nan_sse (s : String) :
    _to_float s = some PyFloat.nan ↔ TokenNan (commaToDot (pyStripL s.toList)) := by
  unfold _to_float
  set txt := commaToDot (pyStripL s.toList) with htxt
  by_cases h1 : txt = []
  · exact iff_of_false (by simp [h1]) (by rw [h1]; decide)
  by_cases h2 : txt = ['-']
  · exact iff_of_false (by simp [h2]) (by rw [h2]; decide)
  by_cases h3 : pyLower txt = ['n', 'a']
  · refine iff_of_false (by simp [h1, h2, h3]) ?_
    intro hT
    have hlen3 : (readSign txt).2.length = 3 := by
      have := congrArg List.length hT
      simpa [pyLower] using this
    have hlen2 : txt.length = 2 := by
      have := congrArg List.length h3
      simpa [pyLower] using this
    rcases length_readSign_snd txt with he | ⟨c, t, hcs, he⟩
    · rw [he] at hlen3
      omega
    · rw [he] at hlen3
      rw [hcs] at hlen2
      simp at hlen2
      omega
  · rw [if_neg (by simp [h1, h2, h3])]
    rcases hrs : readSign txt with ⟨neg, rest⟩
    have hT : TokenNan txt ↔ pyLower rest = ['n', 'a', 'n'] := by
      unfold TokenNan
      rw [hrs]
    rw [hT]
    unfold pyFloat?
    rw [hrs]
    dsimp only
    by_cases hn : pyLower rest = ['n', 'a', 'n']
    · rw [if_neg (by rw [hn]; decide), if_pos hn]
      exact iff_of_true rfl hn
    · refine iff_of_false ?_ hn
      by_cases hinf : (decide (pyLower rest = ['i', 'n', 'f']) ||
          decide (pyLower rest = ['i', 'n', 'f', 'i', 'n', 'i', 't', 'y'])) = true
      · rw [if_pos hinf]
        simp
      · rw [if_neg hinf, if_neg (by simpa using hn)]
        cases parseDecimal rest <;> simp

/-- C4 amended-theorem witness: at the concrete cell `" NAN "`, the
characterisation applies: the trimmed lowered text is a nan token and the
coercion returns NaN. -/
theorem _to_float_nan_sse_aplicado :
    TokenNan (commaToDot (pyStripL " NAN ".toList)) ∧ _to_float " NAN " = some PyFloat.nan :=
  ⟨by decide, (_to_float_nan_sse " NAN ").2 (by decide)⟩

end Clima
